import Mathlib

/-!
Shallow embedding of the project-permission engine of the
hebrew-text-recognition backend (`app/crud.py`, `app/models.py`,
`app/routes/projects.py`).

The SQL store is modelled as lists of rows in table iteration order;
SQLAlchemy `filter(...).first()` becomes `List.find?`, `filter(...).all()`
becomes `List.filter`, and `filter(...).delete()` removes every matching
row.  Roles are free-form strings exactly as in the source
(`'admin'`, `'model_editor'`, `'user_model_only'`, sentinel
`'public_access'`).  Timestamps are server-managed and irrelevant to every
operation modelled here, so they are omitted from the row types.
-/

namespace HTR

/-- `models.Project` row (timestamps omitted). -/
structure Project where
  id : Nat
  name : String
  description : Option String
  image_path : Option String
  is_public : Bool
deriving Repr, DecidableEq

/-- `models.UserProjectPermission` row (timestamps omitted):
`permission_level` is a free-form string. -/
structure Permission where
  user_id : Nat
  project_id : Nat
  permission_level : String
deriving Repr, DecidableEq

/-- The store: `users` keeps only the ids (no other user attribute is read
by the permission engine), `projects` and `permissions` are the two tables
the engine touches, in iteration order. -/
structure DB where
  users : List Nat
  projects : List Project
  permissions : List Permission
deriving Repr, DecidableEq

/-- `crud.get_user` (only existence matters to the engine). -/
def get_user (db : DB) (user_id : Nat) : Option Nat :=
  db.users.find? (fun u => u == user_id)

/-- `crud.get_project`. -/
def get_project (db : DB) (project_id : Nat) : Option Project :=
  db.projects.find? (fun p => p.id == project_id)

/-- `crud.get_user_project_permission`. -/
def get_user_project_permission (db : DB) (user_id project_id : Nat) :
    Option Permission :=
  db.permissions.find? (fun pe => pe.user_id == user_id && pe.project_id == project_id)

/-- `schemas.ProjectCreate` (= `ProjectBase`). -/
structure ProjectCreate where
  name : String
  description : Option String
  image_path : Option String
  is_public : Bool
deriving Repr, DecidableEq

/-- Autoincrement primary key: one more than the largest id in the table
(ids start at 1). -/
def nextProjectId (db : DB) : Nat :=
  db.projects.foldl (fun m p => max m (p.id + 1)) 1

/-- `crud.create_project`: insert the Project row, flush to obtain its id,
insert the creator's `'admin'` permission, commit.  Both rows land in the
same commit. -/
def create_project (db : DB) (project : ProjectCreate) (user_id : Nat) :
    DB × Project :=
  let pid := nextProjectId db
  let db_project : Project :=
    { id := pid, name := project.name, description := project.description,
      image_path := project.image_path, is_public := project.is_public }
  let db_permission : Permission :=
    { user_id := user_id, project_id := pid, permission_level := "admin" }
  ({ db with projects := db.projects ++ [db_project],
             permissions := db.permissions ++ [db_permission] },
   db_project)

/-- `schemas.ProjectBase` after `model_dump(exclude_unset=True)`: each field
is present (`some`) or absent (`none`); `description`/`image_path` are
nullable columns, so a present value is itself an `Option`. -/
structure ProjectPatch where
  name : Option String
  description : Option (Option String)
  image_path : Option (Option String)
  is_public : Option Bool
deriving Repr, DecidableEq

/-- The `setattr` loop of `crud.update_project`: fields present in the
patch overwrite, absent fields keep their prior value. -/
def applyPatch (patch : ProjectPatch) (p : Project) : Project :=
  { p with
    name := patch.name.getD p.name,
    description := patch.description.getD p.description,
    image_path := patch.image_path.getD p.image_path,
    is_public := patch.is_public.getD p.is_public }

/-- Patch the first row matching the id (the row `.first()` fetched). -/
def patchFirst (project_id : Nat) (patch : ProjectPatch) :
    List Project → List Project
  | [] => []
  | p :: ps =>
    if p.id == project_id then applyPatch patch p :: ps
    else p :: patchFirst project_id patch ps

/-- `crud.update_project`: fetch the row; if absent return `None` (no
write); otherwise apply the patch and return the refreshed row. -/
def update_project (db : DB) (project_id : Nat) (patch : ProjectPatch) :
    DB × Option Project :=
  match get_project db project_id with
  | none => (db, none)
  | some db_project =>
    ({ db with projects := patchFirst project_id patch db.projects },
     some (applyPatch patch db_project))

/-- Remove the first row matching the id (the row `db.delete` received). -/
def eraseFirstProject (project_id : Nat) : List Project → List Project
  | [] => []
  | p :: ps =>
    if p.id == project_id then ps
    else p :: eraseFirstProject project_id ps

/-- `crud.delete_project`: if the project exists, delete every permission
row referencing it, then the project row itself; if not, return `None` and
change nothing. -/
def delete_project (db : DB) (project_id : Nat) : DB × Option Project :=
  match get_project db project_id with
  | none => (db, none)
  | some db_project =>
    ({ db with
        permissions := db.permissions.filter (fun pe => !(pe.project_id == project_id)),
        projects := eraseFirstProject project_id db.projects },
     some db_project)

/-- Query 1 of `crud.get_user_projects`: ids of projects where the user
has explicit permissions. -/
def userProjectIds (db : DB) (user_id : Nat) : List Nat :=
  (db.permissions.filter (fun pe => pe.user_id == user_id)).map (·.project_id)

/-- Query 2 of `crud.get_user_projects`: public projects the user has no
explicit permission on (the `if user_project_ids else True` guard is
extensionally the same as not-in-the-empty-list). -/
def publicProjects (db : DB) (user_id : Nat) : List Project :=
  db.projects.filter
    (fun p => p.is_public && !((userProjectIds db user_id).contains p.id))

/-- Query 3 of `crud.get_user_projects`: projects with explicit
permissions (the `if user_project_ids else []` guard is extensionally
in-the-empty-list). -/
def permissionProjects (db : DB) (user_id : Nat) : List Project :=
  db.projects.filter (fun p => (userProjectIds db user_id).contains p.id)

/-- The `permission_dict` comprehension: built by iterating the user's
permission rows, a later row with the same project id overwriting an
earlier one. -/
def permDict (db : DB) (user_id project_id : Nat) : Option String :=
  (db.permissions.filter (fun pe => pe.user_id == user_id)).foldl
    (fun acc pe => if pe.project_id == project_id then some pe.permission_level else acc)
    none

/-- `crud.get_user_projects`: explicit-permission projects followed by
public-only projects, each tagged with
`permission_dict.get(project.id, 'public_access')`. -/
def get_user_projects (db : DB) (user_id : Nat) : List (Project × String) :=
  (permissionProjects db user_id ++ publicProjects db user_id).map
    (fun p => (p, (permDict db user_id p.id).getD "public_access"))

/-- `schemas.UserProjectPermissionCreate`. -/
structure PermissionCreate where
  user_id : Nat
  project_id : Nat
  permission_level : String
deriving Repr, DecidableEq

/-- `crud.create_user_project_permission`: insert the row verbatim, no
validation of the role string and no duplicate check. -/
def create_user_project_permission (db : DB) (permission : PermissionCreate) :
    DB × Permission :=
  let db_permission : Permission :=
    { user_id := permission.user_id, project_id := permission.project_id,
      permission_level := permission.permission_level }
  ({ db with permissions := db.permissions ++ [db_permission] }, db_permission)

/-- Overwrite `permission_level` on the first row matching the pair (the
row `.first()` fetched). -/
def setLevelFirst (user_id project_id : Nat) (lvl : String) :
    List Permission → List Permission
  | [] => []
  | pe :: pes =>
    if pe.user_id == user_id && pe.project_id == project_id then
      { pe with permission_level := lvl } :: pes
    else pe :: setLevelFirst user_id project_id lvl pes

/-- `crud.update_user_project_permission`: overwrite the level in place if
the row exists, else return `None` with no write. -/
def update_user_project_permission (db : DB) (user_id project_id : Nat)
    (permission_level : String) : DB × Option Permission :=
  match get_user_project_permission db user_id project_id with
  | none => (db, none)
  | some pe =>
    ({ db with permissions := setLevelFirst user_id project_id permission_level db.permissions },
     some { pe with permission_level := permission_level })

/-! ### The HTTP boundary (`app/routes/projects.py`)

The routes call the service layer, whose operations are the `crud`
functions above; an error result carries the HTTP status code the route
raises (`403` Forbidden, `404` NotFound, `409` Conflict). -/

/-- Outcome of an endpoint call. -/
inductive ApiResult (α : Type) where
  | ok : α → ApiResult α
  | error : Nat → ApiResult α
deriving Repr, DecidableEq

/-- The gate of `update_project_endpoint`:
`not (not permission or permission.permission_level not in ['admin', 'model_editor'])`. -/
def update_gate (permission : Option Permission) : Bool :=
  match permission with
  | none => false
  | some pe => pe.permission_level == "admin" || pe.permission_level == "model_editor"

/-- The gate of `delete_project_endpoint` and of the permission-management
endpoints: `not (not permission or permission.permission_level != 'admin')`. -/
def admin_gate (permission : Option Permission) : Bool :=
  match permission with
  | none => false
  | some pe => pe.permission_level == "admin"

/-- `read_user_projects_endpoint`: 404 for an unknown user, else the
visibility listing. -/
def read_user_projects_endpoint (db : DB) (user_id : Nat) :
    ApiResult (List (Project × String)) :=
  match get_user db user_id with
  | none => .error 404
  | some _ => .ok (get_user_projects db user_id)

/-- `update_project_endpoint`: permission gate first (403), then the
update, whose `None` answer becomes 404. -/
def update_project_endpoint (db : DB) (project_id : Nat)
    (project_update : ProjectPatch) (user_id : Nat) : DB × ApiResult Project :=
  if update_gate (get_user_project_permission db user_id project_id) then
    match update_project db project_id project_update with
    | (db', some p) => (db', .ok p)
    | (db', none) => (db', .error 404)
  else (db, .error 403)

/-- `delete_project_endpoint`: admin gate first (403), then the delete,
whose `None` answer becomes 404. -/
def delete_project_endpoint (db : DB) (project_id user_id : Nat) :
    DB × ApiResult Unit :=
  if admin_gate (get_user_project_permission db user_id project_id) then
    match delete_project db project_id with
    | (db', some _) => (db', .ok ())
    | (db', none) => (db', .error 404)
  else (db, .error 403)

/-- `add_project_permission_endpoint`: admin gate (403), existence of the
path project and of the user to add (404), duplicate check on the
(body user, path project) pair (409), then creation from the body —
which carries its own `project_id`. -/
def add_project_permission_endpoint (db : DB) (project_id : Nat)
    (permission : PermissionCreate) (admin_user_id : Nat) :
    DB × ApiResult Permission :=
  if admin_gate (get_user_project_permission db admin_user_id project_id) then
    match get_project db project_id with
    | none => (db, .error 404)
    | some _ =>
      match get_user db permission.user_id with
      | none => (db, .error 404)
      | some _ =>
        match get_user_project_permission db permission.user_id project_id with
        | some _ => (db, .error 409)
        | none =>
          let (db', pe) := create_user_project_permission db permission
          (db', .ok pe)
  else (db, .error 403)

/-! ### Store well-formedness

Invariants the SQL schema enforces: `projects.id` is a primary key,
`(user_id, project_id)` is the composite primary key of
`user_project_permissions`, and its `project_id` is a foreign key into
`projects`. -/

/-- Project ids are unique (primary key). -/
def ProjectIdsNodup (db : DB) : Prop :=
  (db.projects.map (·.id)).Nodup

/-- At most one permission row per (user, project) pair (composite
primary key). -/
def GrantPairsNodup (db : DB) : Prop :=
  (db.permissions.map (fun pe => (pe.user_id, pe.project_id))).Nodup

/-- Every permission row references an existing project (foreign key,
maintained by the delete cascade). -/
def GrantsReferenceProjects (db : DB) : Prop :=
  ∀ pe ∈ db.permissions, ∃ p ∈ db.projects, p.id = pe.project_id

/-! ### Concrete example store (used to evaluate the theorems) -/

/-- A public project. -/
def exProjPub : Project :=
  { id := 1, name := "P", description := none, image_path := none, is_public := true }

/-- A private project. -/
def exProjPriv : Project :=
  { id := 2, name := "Q", description := some "d", image_path := none, is_public := false }

/-- Two users; user 1 is admin on the private project, user 2 holds no
grant. -/
def exDB : DB :=
  { users := [1, 2], projects := [exProjPub, exProjPriv],
    permissions := [{ user_id := 1, project_id := 2, permission_level := "admin" }] }

/-- A patch setting only the name. -/
def exPatch : ProjectPatch :=
  { name := some "R", description := none, image_path := none, is_public := none }

/-- Creation attributes for a private project. -/
def exPC : ProjectCreate :=
  { name := "N", description := none, image_path := none, is_public := false }

/-! ### Helper lemmas -/

theorem foldl_max_le (l : List Project) :
    ∀ a : Nat, a ≤ l.foldl (fun m p => max m (p.id + 1)) a := by
  induction l with
  | nil => intro a; exact le_refl a
  | cons x xs ih =>
    intro a
    exact le_trans (le_max_left a (x.id + 1)) (ih (max a (x.id + 1)))

theorem mem_lt_foldl_max (l : List Project) :
    ∀ a : Nat, ∀ p ∈ l, p.id < l.foldl (fun m p => max m (p.id + 1)) a := by
  induction l with
  | nil => intro a p hp; exact absurd hp (List.not_mem_nil p)
  | cons x xs ih =>
    intro a p hp
    simp only [List.foldl_cons]
    rcases List.mem_cons.mp hp with h | h
    · subst h
      exact lt_of_lt_of_le
        (lt_of_lt_of_le (Nat.lt_succ_self p.id) (le_max_right a (p.id + 1)))
        (foldl_max_le xs (max a (p.id + 1)))
    · exact ih (max a (x.id + 1)) p h

theorem nextProjectId_fresh (db : DB) :
    ∀ p ∈ db.projects, p.id ≠ nextProjectId db := by
  intro p hp
  exact Nat.ne_of_lt (mem_lt_foldl_max db.projects 1 p hp)

/-! ### Claim theorems -/

/-- C2: `create_project` writes, in one commit, both the new Project row
and the creator's `admin` Grant on it: afterwards the project is in the
store together with the `(creator, project, admin)` permission, the new
id is fresh (so no pre-existing project is the one bootstrapped), and the
store changed by exactly those two rows — there is no state with the new
Project but without the creator's admin Grant. -/
theorem create_project_atomic_bootstrap (db : DB) (pc : ProjectCreate) (uid : Nat) :
    (create_project db pc uid).2 ∈ (create_project db pc uid).1.projects ∧
    ({ user_id := uid, project_id := (create_project db pc uid).2.id,
       permission_level := "admin" } : Permission) ∈ (create_project db pc uid).1.permissions ∧
    (∀ p ∈ db.projects, p.id ≠ (create_project db pc uid).2.id) ∧
    (create_project db pc uid).1.projects = db.projects ++ [(create_project db pc uid).2] ∧
    (create_project db pc uid).1.permissions = db.permissions ++
      [{ user_id := uid, project_id := (create_project db pc uid).2.id,
         permission_level := "admin" }] ∧
    (create_project db pc uid).1.users = db.users := by
  refine ⟨?_, ?_, ?_, rfl, rfl, rfl⟩
  · exact List.mem_append_right db.projects (List.mem_singleton.mpr rfl)
  · exact List.mem_append_right db.permissions (List.mem_singleton.mpr rfl)
  · exact nextProjectId_fresh db

/-- Witness for C2 at the concrete store. -/
theorem create_project_atomic_bootstrap_witness :
    (create_project exDB exPC 1).2 ∈ (create_project exDB exPC 1).1.projects ∧
    ({ user_id := 1, project_id := (create_project exDB exPC 1).2.id,
       permission_level := "admin" } : Permission) ∈ (create_project exDB exPC 1).1.permissions :=
  ⟨(create_project_atomic_bootstrap exDB exPC 1).1,
   (create_project_atomic_bootstrap exDB exPC 1).2.1⟩

/-- C5: the mutation gate of `update_project_endpoint` rejects a user
whose only relation to the project is public visibility (project exists
and is public, but there is no permission row for the pair): the endpoint
answers 403 and leaves the store unchanged.  It accepts any user holding
a permission at rank editor or above (`'model_editor'` or `'admin'`): the
gate is true and the endpoint never answers 403. -/
theorem update_gate_role_policy (db : DB) (project_id user_id : Nat)
    (patch : ProjectPatch) :
    (∀ proj, get_project db project_id = some proj → proj.is_public = true →
      get_user_project_permission db user_id project_id = none →
      update_project_endpoint db project_id patch user_id = (db, .error 403)) ∧
    (∀ pe, get_user_project_permission db user_id project_id = some pe →
      (pe.permission_level = "model_editor" ∨ pe.permission_level = "admin") →
      update_gate (get_user_project_permission db user_id project_id) = true ∧
      (update_project_endpoint db project_id patch user_id).2 ≠ .error 403) := by
  constructor
  · intro proj _ _ hnone
    unfold update_project_endpoint
    rw [hnone]
    rfl
  · intro pe hsome hlvl
    have hgate : update_gate (get_user_project_permission db user_id project_id) = true := by
      rw [hsome]
      show (pe.permission_level == "admin" || pe.permission_level == "model_editor") = true
      rcases hlvl with h | h <;> rw [h] <;> decide
    refine ⟨hgate, ?_⟩
    unfold update_project_endpoint
    rw [hgate]
    simp only [if_true]
    rcases hupd : update_project db project_id patch with ⟨db', r⟩
    cases r <;> simp

/-- Witness for C5 at the concrete store: user 2 sees the public project
only publicly and is rejected; user 1 holds `admin` on the private
project and passes the gate. -/
theorem update_gate_role_policy_witness :
    update_project_endpoint exDB 1 exPatch 2 = (exDB, .error 403) ∧
    update_gate (get_user_project_permission exDB 1 2) = true :=
  ⟨(update_gate_role_policy exDB 1 2 exPatch).1 exProjPub rfl rfl rfl,
   ((update_gate_role_policy exDB 2 1 exPatch).2
     { user_id := 1, project_id := 2, permission_level := "admin" } rfl (Or.inr rfl)).1⟩

/-- C9: on a project id with no Project row, in a store where every
permission references an existing project, the update and delete
endpoints answer 403 Forbidden to every caller (never 404): the
permission gate runs first and no permission row can match the
nonexistent project. -/
theorem nonexistent_project_forbidden (db : DB) (project_id : Nat)
    (hfk : GrantsReferenceProjects db)
    (hnone : get_project db project_id = none) :
    ∀ user_id patch,
      update_project_endpoint db project_id patch user_id = (db, .error 403) ∧
      delete_project_endpoint db project_id user_id = (db, .error 403) := by
  intro user_id patch
  have hnoproj : ∀ p ∈ db.projects, p.id ≠ project_id := by
    intro p hp
    have := List.find?_eq_none.mp hnone p hp
    intro h
    exact this (by rw [h]; exact beq_self_eq_true project_id)
  have hlook : get_user_project_permission db user_id project_id = none := by
    apply List.find?_eq_none.mpr
    intro pe hpe hmatch
    have hpid : pe.project_id = project_id := by
      simp only [Bool.and_eq_true, beq_iff_eq] at hmatch
      exact hmatch.2
    obtain ⟨p, hp, hid⟩ := hfk pe hpe
    exact hnoproj p hp (hid.trans hpid)
  constructor
  · unfold update_project_endpoint
    rw [hlook]
    rfl
  · unfold delete_project_endpoint
    rw [hlook]
    rfl

/-- Witness for C9 at the concrete store (project 5 does not exist). -/
theorem nonexistent_project_forbidden_witness :
    update_project_endpoint exDB 5 exPatch 1 = (exDB, .error 403) ∧
    delete_project_endpoint exDB 5 1 = (exDB, .error 403) :=
  nonexistent_project_forbidden exDB 5 (by unfold GrantsReferenceProjects; decide) rfl 1 exPatch

/-- C10: permission rows are stored with the requested role string
verbatim — any string, including text outside the role enumeration —
both on creation and on role update, and the downstream gates compare the
stored string by equality (`'admin'`) or two-element membership
(`'admin'`/`'model_editor'`). -/
theorem permission_level_unvalidated (db : DB) (pc : PermissionCreate) :
    ((create_user_project_permission db pc).2.permission_level = pc.permission_level ∧
     (create_user_project_permission db pc).2 ∈ (create_user_project_permission db pc).1.permissions ∧
     (create_user_project_permission db pc).1.permissions =
       db.permissions ++ [(create_user_project_permission db pc).2]) ∧
    (∀ user_id project_id s pe,
      get_user_project_permission db user_id project_id = some pe →
      (update_user_project_permission db user_id project_id s).2 =
        some { pe with permission_level := s }) ∧
    (∀ pe : Permission,
      update_gate (some pe) =
        (pe.permission_level == "admin" || pe.permission_level == "model_editor") ∧
      admin_gate (some pe) = (pe.permission_level == "admin")) := by
  refine ⟨⟨rfl, List.mem_append_right db.permissions (List.mem_singleton.mpr rfl), rfl⟩, ?_, ?_⟩
  · intro user_id project_id s pe hsome
    unfold update_user_project_permission
    rw [hsome]
  · intro pe
    exact ⟨rfl, rfl⟩

/-- Witness for C10: the sentinel string is stored verbatim and passes no
mutation gate. -/
theorem permission_level_unvalidated_witness :
    (create_user_project_permission exDB
      { user_id := 2, project_id := 1, permission_level := "public_access" }).2.permission_level
      = "public_access" ∧
    update_gate (some { user_id := 2, project_id := 1, permission_level := "public_access" })
      = ("public_access" == "admin" || "public_access" == "model_editor") :=
  ⟨(permission_level_unvalidated exDB
      { user_id := 2, project_id := 1, permission_level := "public_access" }).1.1,
   ((permission_level_unvalidated exDB
      { user_id := 2, project_id := 1, permission_level := "public_access" }).2.2
      { user_id := 2, project_id := 1, permission_level := "public_access" }).1⟩

/-- C3: under a passing admin gate, with the path project and the user to
add existing and the body naming the path project, the grant endpoint
answers 409 Conflict and writes nothing when a permission row already
exists for the pair, and otherwise succeeds with exactly one new
permission row carrying the requested role as its only store effect. -/
theorem grant_permission_conflict_or_insert (db : DB) (project_id : Nat)
    (pc : PermissionCreate) (admin_user_id : Nat)
    (hgate : admin_gate (get_user_project_permission db admin_user_id project_id) = true)
    (hproj : (get_project db project_id).isSome = true)
    (huser : (get_user db pc.user_id).isSome = true)
    (hbody : pc.project_id = project_id) :
    (∀ pe, get_user_project_permission db pc.user_id project_id = some pe →
      add_project_permission_endpoint db project_id pc admin_user_id = (db, .error 409)) ∧
    (get_user_project_permission db pc.user_id project_id = none →
      add_project_permission_endpoint db project_id pc admin_user_id =
        ({ db with permissions := db.permissions ++
            [{ user_id := pc.user_id, project_id := project_id,
               permission_level := pc.permission_level }] },
         .ok { user_id := pc.user_id, project_id := project_id,
               permission_level := pc.permission_level })) := by
  obtain ⟨proj, hp⟩ := Option.isSome_iff_exists.mp hproj
  obtain ⟨u, hu⟩ := Option.isSome_iff_exists.mp huser
  constructor
  · intro pe hsome
    unfold add_project_permission_endpoint
    rw [hgate, hp, hu, hsome]
    rfl
  · intro hnone
    unfold add_project_permission_endpoint
    rw [hgate, hp, hu, hnone]
    simp only [if_true]
    unfold create_user_project_permission
    rw [hbody]

/-- Witness for C3: user 1 is admin on project 2; granting user 2 a role
on project 2 succeeds with exactly one new row. -/
theorem grant_permission_conflict_or_insert_witness :
    add_project_permission_endpoint exDB 2
        { user_id := 2, project_id := 2, permission_level := "model_editor" } 1 =
      ({ exDB with permissions := exDB.permissions ++
          [{ user_id := 2, project_id := 2, permission_level := "model_editor" }] },
       .ok { user_id := 2, project_id := 2, permission_level := "model_editor" }) :=
  (grant_permission_conflict_or_insert exDB 2
    { user_id := 2, project_id := 2, permission_level := "model_editor" } 1
    rfl rfl rfl rfl).2 rfl

/-- `applyPatch` never changes the primary key. -/
theorem applyPatch_id (patch : ProjectPatch) (p : Project) :
    (applyPatch patch p).id = p.id := rfl

/-- `patchFirst` leaves lookups of every other id unchanged. -/
theorem patchFirst_find_other (project_id q : Nat) (hq : q ≠ project_id)
    (patch : ProjectPatch) :
    ∀ l : List Project,
      (patchFirst project_id patch l).find? (fun p => p.id == q) =
        l.find? (fun p => p.id == q) := by
  intro l
  induction l with
  | nil => rfl
  | cons x xs ih =>
    by_cases hx : x.id = project_id
    · have hbeq : (x.id == project_id) = true := beq_iff_eq.mpr hx
      have hxq : (x.id == q) = false := by
        apply beq_eq_false_iff_ne.mpr
        rw [hx]
        exact fun h => hq h.symm
      simp only [patchFirst, hbeq, if_true, List.find?_cons, applyPatch_id, hxq]
    · have hbeq : (x.id == project_id) = false := beq_eq_false_iff_ne.mpr hx
      simp only [patchFirst, hbeq, Bool.false_eq_true, if_false, List.find?_cons]
      cases hxq : (x.id == q) with
      | true => rfl
      | false => simpa using ih

/-- `patchFirst` replaces the looked-up row by its patched version. -/
theorem patchFirst_find_self (project_id : Nat) (patch : ProjectPatch) :
    ∀ (l : List Project) (proj : Project),
      l.find? (fun p => p.id == project_id) = some proj →
      (patchFirst project_id patch l).find? (fun p => p.id == project_id) =
        some (applyPatch patch proj) := by
  intro l
  induction l with
  | nil => intro proj h; exact absurd h (by simp)
  | cons x xs ih =>
    intro proj h
    rw [List.find?_cons] at h
    by_cases hx : x.id = project_id
    · have hbeq : (x.id == project_id) = true := beq_iff_eq.mpr hx
      simp only [hbeq, Option.some.injEq] at h
      subst h
      simp only [patchFirst, hbeq, if_true, List.find?_cons, applyPatch_id]
    · have hbeq : (x.id == project_id) = false := beq_eq_false_iff_ne.mpr hx
      simp only [hbeq] at h
      simp only [patchFirst, hbeq, Bool.false_eq_true, if_false, List.find?_cons]
      simpa using ih proj h

/-- C7: on an existing project, `update_project` overwrites exactly the
fields present in the patch (absent fields keep their prior value, the id
is untouched), stores and returns the patched row, and changes nothing
else — lookups of every other project id, the permission table and the
user table are unchanged.  On a nonexistent id it returns `None` and the
store is untouched. -/
theorem update_project_applies_patch (db : DB) (project_id : Nat)
    (patch : ProjectPatch) :
    (∀ proj, get_project db project_id = some proj →
      (update_project db project_id patch).2 = some (applyPatch patch proj) ∧
      (applyPatch patch proj).id = proj.id ∧
      (applyPatch patch proj).name = patch.name.getD proj.name ∧
      (applyPatch patch proj).description = patch.description.getD proj.description ∧
      (applyPatch patch proj).image_path = patch.image_path.getD proj.image_path ∧
      (applyPatch patch proj).is_public = patch.is_public.getD proj.is_public ∧
      get_project (update_project db project_id patch).1 project_id =
        some (applyPatch patch proj) ∧
      (∀ q, q ≠ project_id →
        get_project (update_project db project_id patch).1 q = get_project db q) ∧
      (update_project db project_id patch).1.permissions = db.permissions ∧
      (update_project db project_id patch).1.users = db.users) ∧
    (get_project db project_id = none →
      update_project db project_id patch = (db, none)) := by
  constructor
  · intro proj h
    have hupd : update_project db project_id patch =
        ({ db with projects := patchFirst project_id patch db.projects },
         some (applyPatch patch proj)) := by
      unfold update_project
      rw [h]
    rw [hupd]
    refine ⟨rfl, rfl, rfl, rfl, rfl, rfl, ?_, ?_, rfl, rfl⟩
    · exact patchFirst_find_self project_id patch db.projects proj h
    · intro q hq
      exact patchFirst_find_other project_id q hq patch db.projects
  · intro h
    unfold update_project
    rw [h]

/-- Witness for C7 at the concrete store: patching only the name of the
private project. -/
theorem update_project_applies_patch_witness :
    (update_project exDB 2 exPatch).2 = some (applyPatch exPatch exProjPriv) ∧
    (applyPatch exPatch exProjPriv).name = exPatch.name.getD exProjPriv.name ∧
    (applyPatch exPatch exProjPriv).description =
      exPatch.description.getD exProjPriv.description ∧
    update_project exDB 5 exPatch = (exDB, none) :=
  ⟨((update_project_applies_patch exDB 2 exPatch).1 exProjPriv rfl).1,
   ((update_project_applies_patch exDB 2 exPatch).1 exProjPriv rfl).2.2.1,
   ((update_project_applies_patch exDB 2 exPatch).1 exProjPriv rfl).2.2.2.1,
   (update_project_applies_patch exDB 5 exPatch).2 rfl⟩

/-- The dictionary fold ignores rows for other projects. -/
theorem dictFold_no_match (project_id : Nat) :
    ∀ (l : List Permission) (acc : Option String),
      (∀ pe ∈ l, pe.project_id ≠ project_id) →
      l.foldl (fun acc pe =>
        if pe.project_id == project_id then some pe.permission_level else acc) acc = acc := by
  intro l
  induction l with
  | nil => intro acc _; rfl
  | cons x xs ih =>
    intro acc h
    have hx : (x.project_id == project_id) = false :=
      beq_eq_false_iff_ne.mpr (h x (List.mem_cons_self x xs))
    simp only [List.foldl_cons, hx, Bool.false_eq_true, if_false]
    exact ih acc (fun pe hpe => h pe (List.mem_cons_of_mem x hpe))

/-- No grant for the pair means the dictionary lookup misses. -/
theorem permDict_eq_none (db : DB) (user_id project_id : Nat)
    (h : ∀ pe ∈ db.permissions, pe.user_id = user_id → pe.project_id ≠ project_id) :
    permDict db user_id project_id = none := by
  unfold permDict
  apply dictFold_no_match
  intro pe hpe
  have hmem := List.mem_filter.mp hpe
  exact h pe hmem.1 (by simpa using hmem.2)

/-- With at most one grant per pair, the dictionary lookup returns the
grant's role. -/
theorem permDict_eq_of_mem (db : DB) (user_id : Nat)
    (hperm : GrantPairsNodup db) (pe : Permission)
    (hmem : pe ∈ db.permissions) (hu : pe.user_id = user_id) :
    permDict db user_id pe.project_id = some pe.permission_level := by
  have hpe_fl : pe ∈ db.permissions.filter (fun q => q.user_id == user_id) :=
    List.mem_filter.mpr ⟨hmem, by simp [hu]⟩
  obtain ⟨l1, l2, hfl⟩ := List.append_of_mem hpe_fl
  have hnd : ((db.permissions.filter (fun q => q.user_id == user_id)).map
      (fun q => (q.user_id, q.project_id))).Nodup :=
    hperm.sublist (List.Sublist.map _ (List.filter_sublist _))
  rw [hfl] at hnd
  simp only [List.map_append, List.map_cons] at hnd
  have hnotin : (pe.user_id, pe.project_id) ∉
      l2.map (fun q => (q.user_id, q.project_id)) :=
    (List.nodup_cons.mp (hnd.of_append_right)).1
  have hl2 : ∀ q ∈ l2, q.project_id ≠ pe.project_id := by
    intro q hq hqid
    have hq_fl : q ∈ db.permissions.filter (fun r => r.user_id == user_id) := by
      rw [hfl]
      exact List.mem_append_right l1 (List.mem_cons_of_mem pe hq)
    have hqu : q.user_id = user_id := by
      simpa using (List.mem_filter.mp hq_fl).2
    exact hnotin (List.mem_map.mpr ⟨q, hq, by rw [hqid, hqu, hu]⟩)
  unfold permDict
  rw [hfl, List.foldl_append, List.foldl_cons, beq_self_eq_true, if_pos rfl]
  exact dictFold_no_match pe.project_id l2 (some pe.permission_level) hl2

/-- Membership in query 1's id list is existence of a grant. -/
theorem userProjectIds_contains (db : DB) (user_id project_id : Nat) :
    (userProjectIds db user_id).contains project_id = true ↔
      ∃ pe ∈ db.permissions, pe.user_id = user_id ∧ pe.project_id = project_id := by
  unfold userProjectIds
  constructor
  · intro h
    obtain ⟨pe, hpe, hid⟩ :=
      List.mem_map.mp (List.elem_iff.mp h)
    have hf := List.mem_filter.mp hpe
    exact ⟨pe, hf.1, by simpa using hf.2, hid⟩
  · intro ⟨pe, hpe, hu, hid⟩
    exact List.elem_iff.mpr
      (List.mem_map.mpr ⟨pe, List.mem_filter.mpr ⟨hpe, by simp [hu]⟩, hid⟩)

/-- Membership in query 3's rows. -/
theorem mem_permissionProjects (db : DB) (user_id : Nat) (p : Project) :
    p ∈ permissionProjects db user_id ↔
      p ∈ db.projects ∧ (userProjectIds db user_id).contains p.id = true := by
  unfold permissionProjects
  exact List.mem_filter

/-- Membership in query 2's rows. -/
theorem mem_publicProjects (db : DB) (user_id : Nat) (p : Project) :
    p ∈ publicProjects db user_id ↔
      p ∈ db.projects ∧ p.is_public = true ∧
        (userProjectIds db user_id).contains p.id = false := by
  unfold publicProjects
  rw [List.mem_filter]
  simp [Bool.and_eq_true, Bool.not_eq_true']

/-- The two row groups of `get_user_projects` are sublists of the project
table, so each has pairwise-distinct ids in a well-formed store. -/
theorem permissionProjects_ids_nodup (db : DB) (user_id : Nat)
    (hproj : ProjectIdsNodup db) :
    ((permissionProjects db user_id).map (·.id)).Nodup :=
  hproj.sublist (List.Sublist.map _ (List.filter_sublist _))

theorem publicProjects_ids_nodup (db : DB) (user_id : Nat)
    (hproj : ProjectIdsNodup db) :
    ((publicProjects db user_id).map (·.id)).Nodup :=
  hproj.sublist (List.Sublist.map _ (List.filter_sublist _))

/-- C1: visibility partition of `get_user_projects` in a well-formed
store: each project id appears at most once; every existing project the
user holds a grant on appears tagged with that grant's role; every public
project without a grant for the user appears tagged `'public_access'`;
and a private project without a grant for the user never appears. -/
theorem get_user_projects_partition (db : DB) (user_id : Nat)
    (hproj : ProjectIdsNodup db) (hperm : GrantPairsNodup db) :
    ((get_user_projects db user_id).map (fun e => e.1.id)).Nodup ∧
    (∀ pe ∈ db.permissions, pe.user_id = user_id →
      ∀ p ∈ db.projects, p.id = pe.project_id →
        (p, pe.permission_level) ∈ get_user_projects db user_id) ∧
    (∀ p ∈ db.projects, p.is_public = true →
      (∀ pe ∈ db.permissions, pe.user_id = user_id → pe.project_id ≠ p.id) →
        (p, "public_access") ∈ get_user_projects db user_id) ∧
    (∀ p ∈ db.projects, p.is_public = false →
      (∀ pe ∈ db.permissions, pe.user_id = user_id → pe.project_id ≠ p.id) →
        ∀ s, (p, s) ∉ get_user_projects db user_id) := by
  refine ⟨?_, ?_, ?_, ?_⟩
  · unfold get_user_projects
    rw [List.map_map]
    have hcomp : ((fun e : Project × String => e.1.id) ∘
        fun p => (p, (permDict db user_id p.id).getD "public_access")) =
        fun p => p.id := rfl
    rw [hcomp, List.map_append]
    apply List.Nodup.append
    · exact permissionProjects_ids_nodup db user_id hproj
    · exact publicProjects_ids_nodup db user_id hproj
    · intro a ha1 ha2
      obtain ⟨p, hp, hpid⟩ := List.mem_map.mp ha1
      obtain ⟨q, hq, hqid⟩ := List.mem_map.mp ha2
      have hpc := ((mem_permissionProjects db user_id p).mp hp).2
      have hqc := ((mem_publicProjects db user_id q).mp hq).2.2
      rw [← hpid] at hqid
      rw [← hqid] at hpc
      rw [hpc] at hqc
      exact Bool.true_eq_false ▸ hqc
  · intro pe hpe hu p hp hpid
    unfold get_user_projects
    apply List.mem_map.mpr
    refine ⟨p, List.mem_append_left _ ?_, ?_⟩
    · exact (mem_permissionProjects db user_id p).mpr
        ⟨hp, (userProjectIds_contains db user_id p.id).mpr ⟨pe, hpe, hu, hpid.symm⟩⟩
    · show (p, (permDict db user_id p.id).getD "public_access") = (p, pe.permission_level)
      rw [hpid, permDict_eq_of_mem db user_id hperm pe hpe hu]
      rfl
  · intro p hp hpub hno
    unfold get_user_projects
    apply List.mem_map.mpr
    refine ⟨p, List.mem_append_right _ ?_, ?_⟩
    · refine (mem_publicProjects db user_id p).mpr ⟨hp, hpub, ?_⟩
      cases hcc : (userProjectIds db user_id).contains p.id with
      | false => rfl
      | true =>
        obtain ⟨pe, hpe, hu, hpid⟩ := (userProjectIds_contains db user_id p.id).mp hcc
        exact absurd hpid (hno pe hpe hu)
    · show (p, (permDict db user_id p.id).getD "public_access") = (p, "public_access")
      rw [permDict_eq_none db user_id p.id hno]
      rfl
  · intro p hp hpriv hno s hmem
    unfold get_user_projects at hmem
    obtain ⟨q, hq, heq⟩ := List.mem_map.mp hmem
    have hqp : q = p := (Prod.ext_iff.mp heq).1
    subst hqp
    rcases List.mem_append.mp hq with h | h
    · have hc := ((mem_permissionProjects db user_id q).mp h).2
      obtain ⟨pe, hpe, hu, hpid⟩ := (userProjectIds_contains db user_id q.id).mp hc
      exact hno pe hpe hu hpid
    · have hc := ((mem_publicProjects db user_id q).mp h).2.1
      rw [hpriv] at hc
      exact Bool.false_ne_true hc

/-- Witness for C1 at the concrete store: user 1 sees the private project
with the granted `admin` role; user 2, holding no grant, does not see the
private project even with the sentinel role. -/
theorem get_user_projects_partition_witness :
    (exProjPriv, "admin") ∈ get_user_projects exDB 1 ∧
    (exProjPriv, "public_access") ∉ get_user_projects exDB 2 :=
  ⟨(get_user_projects_partition exDB 1
      (by unfold ProjectIdsNodup; decide) (by unfold GrantPairsNodup; decide)).2.1
      { user_id := 1, project_id := 2, permission_level := "admin" } (by decide) rfl
      exProjPriv (by decide) rfl,
   (get_user_projects_partition exDB 2
      (by unfold ProjectIdsNodup; decide) (by unfold GrantPairsNodup; decide)).2.2.2
      exProjPriv (by decide) rfl (by decide) "public_access"⟩

/-- C8: the listing is the explicit-grant group followed by the
public-only group: it splits as `xs ++ ys` where every entry of `xs` is a
project the user holds a grant on, and every entry of `ys` is a project
with no grant for the user, tagged with the sentinel role.  Nothing more
is stated about the order inside either group. -/
theorem get_user_projects_grouping (db : DB) (user_id : Nat) :
    ∃ xs ys, get_user_projects db user_id = xs ++ ys ∧
      (∀ e ∈ xs, ∃ pe ∈ db.permissions,
        pe.user_id = user_id ∧ pe.project_id = e.1.id) ∧
      (∀ e ∈ ys, (∀ pe ∈ db.permissions,
          pe.user_id = user_id → pe.project_id ≠ e.1.id) ∧
        e.2 = "public_access") := by
  refine ⟨(permissionProjects db user_id).map
      (fun p => (p, (permDict db user_id p.id).getD "public_access")),
    (publicProjects db user_id).map
      (fun p => (p, (permDict db user_id p.id).getD "public_access")),
    ?_, ?_, ?_⟩
  · unfold get_user_projects
    exact List.map_append _ _ _
  · intro e he
    obtain ⟨p, hp, hpe⟩ := List.mem_map.mp he
    subst hpe
    have hc := ((mem_permissionProjects db user_id p).mp hp).2
    obtain ⟨pe, hpem, hu, hpid⟩ := (userProjectIds_contains db user_id p.id).mp hc
    exact ⟨pe, hpem, hu, hpid⟩
  · intro e he
    obtain ⟨p, hp, hpe⟩ := List.mem_map.mp he
    subst hpe
    have hm := (mem_publicProjects db user_id p).mp hp
    have hnog : ∀ pe ∈ db.permissions, pe.user_id = user_id → pe.project_id ≠ p.id := by
      intro pe hpem hu hpid
      have hcc : (userProjectIds db user_id).contains p.id = true :=
        (userProjectIds_contains db user_id p.id).mpr ⟨pe, hpem, hu, hpid⟩
      rw [hm.2.2] at hcc
      exact Bool.false_ne_true hcc
    refine ⟨hnog, ?_⟩
    show (permDict db user_id p.id).getD "public_access" = "public_access"
    rw [permDict_eq_none db user_id p.id hnog]
    rfl

/-- Witness for C8 at the concrete store. -/
theorem get_user_projects_grouping_witness :
    ∃ xs ys, get_user_projects exDB 1 = xs ++ ys ∧
      (∀ e ∈ xs, ∃ pe ∈ exDB.permissions,
        pe.user_id = 1 ∧ pe.project_id = e.1.id) ∧
      (∀ e ∈ ys, (∀ pe ∈ exDB.permissions,
          pe.user_id = 1 → pe.project_id ≠ e.1.id) ∧
        e.2 = "public_access") :=
  get_user_projects_grouping exDB 1

/-- After erasing the first row with the given id in a duplicate-free
table, no row with that id remains. -/
theorem eraseFirstProject_no_match (project_id : Nat) :
    ∀ l : List Project, (l.map (·.id)).Nodup →
      ∀ q ∈ eraseFirstProject project_id l, q.id ≠ project_id := by
  intro l
  induction l with
  | nil => intro _ q hq; exact absurd hq (List.not_mem_nil q)
  | cons x xs ih =>
    intro hnd q hq
    have hnd' : x.id ∉ xs.map (·.id) ∧ (xs.map (·.id)).Nodup := by
      rw [List.map_cons] at hnd
      exact List.nodup_cons.mp hnd
    by_cases hx : x.id = project_id
    · have hbeq : (x.id == project_id) = true := beq_iff_eq.mpr hx
      simp only [eraseFirstProject, hbeq, if_true] at hq
      intro hqid
      have hmem : q.id ∈ xs.map (·.id) := List.mem_map.mpr ⟨q, hq, rfl⟩
      rw [hqid, ← hx] at hmem
      exact hnd'.1 hmem
    · have hbeq : (x.id == project_id) = false := beq_eq_false_iff_ne.mpr hx
      simp only [eraseFirstProject, hbeq, Bool.false_eq_true, if_false] at hq
      rcases List.mem_cons.mp hq with h | h
      · subst h; exact hx
      · exact ih hnd'.2 q h

/-- Every listed entry's project is a row of the project table. -/
theorem mem_get_user_projects_proj (db : DB) (user_id : Nat)
    (e : Project × String) (he : e ∈ get_user_projects db user_id) :
    e.1 ∈ db.projects := by
  unfold get_user_projects at he
  obtain ⟨p, hp, hpe⟩ := List.mem_map.mp he
  subst hpe
  rcases List.mem_append.mp hp with h | h
  · exact ((mem_permissionProjects db user_id p).mp h).1
  · exact ((mem_publicProjects db user_id p).mp h).1

/-- C4: on an existing project, `delete_project` returns the deleted row,
removes every permission referencing the project (so the pair lookup is
absent for every user), and the project no longer appears in any user's
listing; on a nonexistent id it returns `None` and the store is
untouched. -/
theorem delete_project_cascade (db : DB) (project_id : Nat)
    (hproj : ProjectIdsNodup db) :
    (∀ proj, get_project db project_id = some proj →
      (delete_project db project_id).2 = some proj ∧
      (∀ user_id, get_user_project_permission
          (delete_project db project_id).1 user_id project_id = none) ∧
      (∀ pe ∈ (delete_project db project_id).1.permissions,
        pe.project_id ≠ project_id) ∧
      (∀ user_id e, e ∈ get_user_projects (delete_project db project_id).1 user_id →
        e.1.id ≠ project_id)) ∧
    (get_project db project_id = none →
      delete_project db project_id = (db, none)) := by
  constructor
  · intro proj h
    have hdel : delete_project db project_id =
        ({ db with
            permissions := db.permissions.filter
              (fun pe => !(pe.project_id == project_id)),
            projects := eraseFirstProject project_id db.projects },
         some proj) := by
      unfold delete_project
      rw [h]
    rw [hdel]
    refine ⟨rfl, ?_, ?_, ?_⟩
    · intro user_id
      apply List.find?_eq_none.mpr
      intro pe hpe hmatch
      have hf := List.mem_filter.mp hpe
      have hne : pe.project_id ≠ project_id := by simpa using hf.2
      simp only [Bool.and_eq_true, beq_iff_eq] at hmatch
      exact hne hmatch.2
    · intro pe hpe
      have hf := List.mem_filter.mp hpe
      simpa using hf.2
    · intro user_id e he
      have hmem := mem_get_user_projects_proj _ user_id e he
      exact eraseFirstProject_no_match project_id db.projects hproj e.1 hmem
  · intro h
    unfold delete_project
    rw [h]

/-- Witness for C4 at the concrete store: deleting the private project
removes user 1's grant; deleting a nonexistent id is a no-op `None`. -/
theorem delete_project_cascade_witness :
    (delete_project exDB 2).2 = some exProjPriv ∧
    get_user_project_permission (delete_project exDB 2).1 1 2 = none ∧
    delete_project exDB 5 = (exDB, none) :=
  ⟨((delete_project_cascade exDB 2 (by unfold ProjectIdsNodup; decide)).1
      exProjPriv rfl).1,
   ((delete_project_cascade exDB 2 (by unfold ProjectIdsNodup; decide)).1
      exProjPriv rfl).2.1 1,
   (delete_project_cascade exDB 5 (by unfold ProjectIdsNodup; decide)).2 rfl⟩

/-- C6 counterexample: user id 3 names no user, the public-only set is
nonempty, yet the listing endpoint answers 404 NotFound instead of that
set — the claim fails at the route layer, which checks user existence
before listing. -/
theorem list_unknown_user_endpoint_errors :
    get_user exDB 3 = none ∧
    get_user_projects exDB 3 = [(exProjPub, "public_access")] ∧
    read_user_projects_endpoint exDB 3 = ApiResult.error 404 := by
  refine ⟨rfl, by decide, rfl⟩

/-- C6 (amended): the crud-level listing `get_user_projects` itself has
no failure mode — for a user id holding no grants (in particular any id
naming no user) it returns exactly the public projects, each tagged
`'public_access'`; the HTTP endpoint, however, rejects an unknown user id
with 404 NotFound before listing. -/
theorem get_user_projects_unknown_user (db : DB) (user_id : Nat)
    (hno : ∀ pe ∈ db.permissions, pe.user_id ≠ user_id) :
    get_user_projects db user_id =
      (db.projects.filter (·.is_public)).map (fun p => (p, "public_access")) ∧
    (get_user db user_id = none →
      read_user_projects_endpoint db user_id = ApiResult.error 404) := by
  have hfil : db.permissions.filter (fun pe => pe.user_id == user_id) = [] :=
    List.filter_eq_nil_iff.mpr (fun pe hpe => by simpa using hno pe hpe)
  have hupids : userProjectIds db user_id = [] := by
    unfold userProjectIds
    rw [hfil]
    rfl
  constructor
  · unfold get_user_projects
    have hpp : permissionProjects db user_id = [] := by
      unfold permissionProjects
      apply List.filter_eq_nil_iff.mpr
      intro p _
      rw [hupids]
      simp
    have hpub : publicProjects db user_id = db.projects.filter (·.is_public) := by
      unfold publicProjects
      apply List.filter_congr
      intro p _
      rw [hupids]
      simp
    rw [hpp, hpub, List.nil_append]
    apply List.map_congr_left
    intro p _
    show (p, (permDict db user_id p.id).getD "public_access") = (p, "public_access")
    rw [permDict_eq_none db user_id p.id
      (fun pe hpe hu2 => absurd hu2 (hno pe hpe))]
    rfl
  · intro hu
    unfold read_user_projects_endpoint
    rw [hu]

/-- Witness for the amended C6 at the concrete store. -/
theorem get_user_projects_unknown_user_witness :
    get_user_projects exDB 3 =
      (exDB.projects.filter (·.is_public)).map (fun p => (p, "public_access")) ∧
    read_user_projects_endpoint exDB 3 = ApiResult.error 404 :=
  ⟨(get_user_projects_unknown_user exDB 3 (by decide)).1,
   (get_user_projects_unknown_user exDB 3 (by decide)).2 rfl⟩

end HTR
